import Mathlib

/-!
Verification of the content segmentation (chunking) engine of the
policylens repository, embedded shallowly from `src/scraper/chunker.py`
and `src/scraper/config.py`.

Python strings are modelled as `List Char` (`Text`), Python ints as `Int`,
Python floats as `Rat` (the float values appearing in the verified
configurations are exactly representable), and `time.time()` stamps as an
explicit pair of `Int` arguments.  Fallible code returns `Except`.

Counter-style recursions force their numeric accumulator at every step
(the `match n with | 0 | k + 1` shape) so that concrete evaluation inside
the kernel runs in constant stack depth; this does not change the computed
value (see `lenGo_eq`).
-/

set_option maxRecDepth 20000

abbrev Text := List Char

/-- Convenience conversion from a string literal to the `Text` model. -/
def toText (s : String) : Text := s.toList

/-- Length counter; models the Python builtin `len` on strings and lists. -/
def lenGo {α : Type} : Nat → List α → Nat
  | n, [] => n
  | n, _ :: cs =>
    match n with
    | 0 => lenGo 1 cs
    | k + 1 => lenGo (k + 2) cs

/-- Python `len(t)` for text. -/
def pyLen (t : Text) : Nat := lenGo 0 t

/-- Python `text.strip()`: remove leading and trailing whitespace. -/
def stripChars (t : Text) : Text :=
  ((t.dropWhile Char.isWhitespace).reverse.dropWhile Char.isWhitespace).reverse

/-- Worker for `splitWs`; `acc` holds the current word reversed.  The
branches go through `cond` on `Bool` rather than `if` so that long
concrete evaluations reduce in constant stack depth. -/
def splitWsAux : Text → Text → List Text
  | [], acc =>
    match acc.isEmpty with
    | true => []
    | false => [acc.reverse]
  | c :: cs, acc =>
    match c.isWhitespace with
    | true =>
      match acc.isEmpty with
      | true => splitWsAux cs []
      | false => acc.reverse :: splitWsAux cs []
    | false => splitWsAux cs (c :: acc)

/-- Python `text.split()`: split on whitespace runs, dropping empty pieces. -/
def splitWs (t : Text) : List Text := splitWsAux t []

/-- Python `len(text.split())`, the word count used by the chunker. -/
def wordCount (t : Text) : Nat := lenGo 0 (splitWs t)

/-- Python `sep.join(xs)`. -/
def pyJoin (sep : Text) (xs : List Text) : Text := List.intercalate sep xs

/-- Python slice `xs[i:j]` with the usual clamping and negative-index rules. -/
def pyslice {α : Type} (xs : List α) (i j : Int) : List α :=
  let n : Int := lenGo 0 xs
  let i2 := if i < 0 then max (n + i) 0 else min i n
  let j2 := if j < 0 then max (n + j) 0 else min j n
  (xs.drop i2.toNat).take (j2 - i2).toNat

/-- Worker for `pyRfind`: scan candidate indices downward from `i` to `lo`. -/
def rfindGo (hay sub : Text) (lo : Int) : Nat → Int → Int
  | 0, _ => -1
  | fuel + 1, i =>
    if i < lo then -1
    else if sub.isPrefixOf (hay.drop i.toNat) then i
    else rfindGo hay sub lo fuel (i - 1)

/-- Python `hay.rfind(sub, start, stop)`: highest index of an occurrence of
`sub` inside `hay[start:stop]`, or `-1` when there is none. -/
def pyRfind (hay sub : Text) (start stop : Int) : Int :=
  let n : Int := lenGo 0 hay
  let s2 := if start < 0 then max (n + start) 0 else min start n
  let e2 := if stop < 0 then max (n + stop) 0 else min stop n
  let hi := e2 - (lenGo 0 sub : Int)
  rfindGo hay sub s2 (hi - s2 + 1).toNat hi

/-- Boolean equality on text whose evaluation runs in constant stack
depth, usable on long concrete inputs. -/
def eqChars (x y : Text) : Bool :=
  match x with
  | [] => y.isEmpty
  | a :: as_ =>
    match y with
    | [] => false
    | b :: bs =>
      match a == b with
      | true => eqChars as_ bs
      | false => false

/-- Boolean equality on lists of texts, evaluation in constant stack. -/
def eqTextList (x y : List Text) : Bool :=
  match x with
  | [] => y.isEmpty
  | a :: as_ =>
    match y with
    | [] => false
    | b :: bs =>
      match eqChars a b with
      | true => eqTextList as_ bs
      | false => false

/-! ## Configuration (`src/scraper/config.py`) -/

/-- ChunkerConfig, `config.py` lines 131-160, with its default values.
Python ints are `Int`, the float `overlap_percentage` is `Rat`. -/
structure ChunkerConfig where
  chunking_method : String := "paragraph"
  chunk_size : Int := 1000
  chunk_overlap : Int := 100
  overlap_percentage : Rat := (1 : Rat) / 10
  sentence_tokenizer : String := "nltk"
  preserve_sentences : Bool := true
  preserve_paragraphs : Bool := false
  token_encoding : String := "cl100k_base"
  max_tokens_per_chunk : Int := 500
  include_chunk_metadata : Bool := true
  include_overlap_info : Bool := true
  skip_empty_chunks : Bool := true
  min_chunk_length : Int := 10
deriving Repr

/-- FetcherConfig, `config.py` lines 10-53 (fields read by `validate`,
plus the other scalar settings; float seconds modelled as `Rat`). -/
structure FetcherConfig where
  connect_timeout : Rat := 10
  read_timeout : Rat := 30
  max_retries : Int := 3
  retry_backoff_factor : Rat := 2
  use_random_user_agent : Bool := true
  verify_ssl : Bool := true
  respect_robots_txt : Bool := true
  robots_txt_cache_duration : Int := 3600
  rate_limit_delay : Rat := 0
  enable_cache : Bool := false
  cache_expire_after : Int := 3600
  allow_redirects : Bool := true
  max_redirects : Int := 5
deriving Repr

/-- ParserConfig, `config.py` lines 56-95 (fields read by `validate`,
plus the other scalar settings).  The source fields named with a
parser suffix are rendered here as `bs4_engine` and `fallback_engine`. -/
structure ParserConfig where
  bs4_engine : String := "lxml"
  fallback_engine : String := "html.parser"
  extraction_methods : List String := ["trafilatura", "readability", "manual"]
  extract_metadata : Bool := true
  include_links : Bool := true
  include_images : Bool := true
  include_tables : Bool := true
  remove_comments : Bool := true
  remove_scripts : Bool := true
  remove_styles : Bool := true
  detect_language : Bool := true
deriving Repr

/-- CleanerConfig, `config.py` lines 98-128 (scalar settings). -/
structure CleanerConfig where
  normalize_whitespace : Bool := true
  normalize_unicode : Bool := true
  remove_control_characters : Bool := true
  remove_urls : Bool := false
  remove_emails : Bool := false
  remove_phone_numbers : Bool := false
  remove_extra_newlines : Bool := true
  decode_html_entities : Bool := true
  remove_html_tags : Bool := true
  convert_to_lowercase : Bool := false
  min_content_length : Int := 50
  min_word_count : Int := 10
  trim_whitespace : Bool := true
deriving Repr

/-- ScraperConfig, `config.py` lines 163-184. -/
structure ScraperConfig where
  fetcher : FetcherConfig := {}
  parser : ParserConfig := {}
  cleaner : CleanerConfig := {}
  chunker : ChunkerConfig := {}
  log_level : String := "INFO"
  enable_colored_logs : Bool := true
  enable_performance_metrics : Bool := true
  output_format : String := "dict"
  include_raw_html : Bool := false
  include_statistics : Bool := true
deriving Repr

/-- ScraperConfig.validate, `config.py` lines 262-306.  A raised
`ValueError(msg)` is modelled as `Except.error msg`. -/
def ScraperConfig.validate (c : ScraperConfig) : Except String Bool :=
  if c.fetcher.connect_timeout ≤ 0 then .error "connect_timeout must be positive"
  else if c.fetcher.read_timeout ≤ 0 then .error "read_timeout must be positive"
  else if c.fetcher.max_retries < 0 then .error "max_retries cannot be negative"
  else if c.chunker.chunk_size ≤ 0 then .error "chunk_size must be positive"
  else if c.chunker.chunk_overlap < 0 then .error "chunk_overlap cannot be negative"
  else if c.chunker.chunk_overlap ≥ c.chunker.chunk_size then
    .error "chunk_overlap must be less than chunk_size"
  else if ¬ (c.chunker.chunking_method ∈
      ["character", "word", "sentence", "paragraph", "token"]) then
    .error "chunking_method must be one of the valid methods"
  else if ¬ (c.parser.bs4_engine ∈ ["lxml", "html.parser", "html5lib"]) then
    .error "bs4_parser must be one of the valid parsers"
  else if ¬ (∀ m ∈ c.parser.extraction_methods,
      m ∈ ["trafilatura", "readability", "manual"]) then
    .error "Unknown extraction method"
  else .ok true

/-! ## The chunking methods (`src/scraper/chunker.py`) -/

/-- Python-level errors that are not `ChunkingError`; `typeErrorIntLeList`
models the `TypeError` raised by comparing an `int` with a `list` with
`<=`, as `chunker.py` line 137 does. -/
inductive PyErr where
  | typeErrorIntLeList
deriving DecidableEq, Repr

/-- Message text used when `chunk` wraps a non-`ChunkingError` exception
(`chunker.py` lines 441-447). -/
def pyErrMsg : PyErr → String
  | .typeErrorIntLeList =>
    "Chunking failed: unsupported comparison between instances of int and list"

/-- Python 3 semantics of `start <= chunks[-1:]` (`chunker.py` line 137):
comparing an `int` with a `list` raises `TypeError` unconditionally. -/
def intLeListCmp (_start : Int) (_xs : List Text) : Except PyErr Bool :=
  .error .typeErrorIntLeList

/-- Sentence-terminator patterns searched by the character method
(`chunker.py` line 120). -/
def sentEndPatterns : List Text :=
  [toText ". ", toText "! ", toText "? ", toText ".\n", toText "!\n", toText "?\n"]

/-- Boundary snap of the character method (`chunker.py` lines 115-128):
look for the latest sentence-terminator in the trailing part of the
chunk; `int(chunk_size * 0.2)` is modelled by toward-zero division by 5.
Returns the possibly adjusted `(end, chunk)`. -/
def charSnap (size : Int) (text : Text) (start e0 : Int) (c0 : Text) : Int × Text :=
  let searchStart := max start (e0 - Int.tdiv size 5)
  let m := sentEndPatterns.foldl (fun acc p =>
    let idx := pyRfind text p searchStart e0
    if idx ≠ -1 ∧ (acc = none ∨ idx > acc.getD 0) then some (idx + (pyLen p : Int))
    else acc) none
  match m with
  | some v => if v ≠ 0 then (v, pyslice text start v) else (e0, c0)
  | none => (e0, c0)

/-- Loop of `_chunk_by_characters` (`chunker.py` lines 104-139).  The
fuel argument bounds the iteration count; it is never exhausted because
line 137 raises `TypeError` in every iteration (see `intLeListCmp`). -/
def chunkCharsGo (size ov : Int) (preserve : Bool) (text : Text) :
    Nat → Int → List Text → Except PyErr (List Text)
  | 0, _, chunks => .ok chunks
  | fuel + 1, start, chunks =>
    if start < (pyLen text : Int) then
      let e0 := start + size
      let c0 := pyslice text start e0
      let ec :=
        if preserve ∧ e0 < (pyLen text : Int) then charSnap size text start e0 c0
        else (e0, c0)
      let chunks2 := if stripChars ec.2 = [] then chunks else chunks ++ [ec.2]
      let start2 := ec.1 - ov
      match intLeListCmp start2 (pyslice chunks2 (-1) (lenGo 0 chunks2 : Int)) with
      | .error e => .error e
      | .ok b =>
        let start3 := if b ∧ 0 < lenGo 0 chunks2 then ec.1 else start2
        chunkCharsGo size ov preserve text fuel start3 chunks2
    else .ok chunks

/-- `_chunk_by_characters` (`chunker.py` lines 90-140). -/
def chunkByCharacters (cfg : ChunkerConfig) (text : Text) : Except PyErr (List Text) :=
  chunkCharsGo cfg.chunk_size cfg.chunk_overlap cfg.preserve_sentences text
    (pyLen text + 1) 0 []

/-- Loop of `_chunk_by_words` (`chunker.py` lines 157-173).  Fuel
exhaustion models the non-termination the Python loop would exhibit; it
does not occur for the configurations treated in the theorems below. -/
def chunkWordsGo (size ov : Int) (ws : List Text) : Nat → Int → List Text → List Text
  | 0, _, chunks => chunks
  | fuel + 1, start, chunks =>
    if start < (lenGo 0 ws : Int) then
      let e := start + size
      let ch := pyJoin [' '] (pyslice ws start e)
      let chunks2 := if stripChars ch = [] then chunks else chunks ++ [ch]
      let start2 := e - ov
      if start2 ≥ e then chunks2 else chunkWordsGo size ov ws fuel start2 chunks2
    else chunks

/-- `_chunk_by_words` (`chunker.py` lines 142-175). -/
def chunkByWords (cfg : ChunkerConfig) (text : Text) : List Text :=
  let ws := splitWs text
  chunkWordsGo cfg.chunk_size cfg.chunk_overlap ws (lenGo 0 ws + 1) 0 []

/-- Uppercase ASCII test, the `[A-Z]` class of the fallback regex. -/
def isUpperAZ (c : Char) : Bool := decide ('A' ≤ c ∧ c ≤ 'Z')

/-- Sentence terminator class `[.!?]` of the fallback regex. -/
def isSentTerm (c : Char) : Bool := decide (c = '.' ∨ c = '!' ∨ c = '?')

/-- Lookbehind test: the last character placed in the current piece. -/
def headIsTerm : Text → Bool
  | p :: _ => isSentTerm p
  | [] => false

/-- State machine realizing `re.split(r"(?<=[.!?])\s+(?=[A-Z])", text)`
(`chunker.py` lines 75-77).  `curr` is the reversed piece built so far,
`pend` a reversed pending whitespace run.  A maximal whitespace run
splits exactly when the character before it is a terminator and the
character after it is an uppercase letter. -/
def simpleSplitAux : Text → Text → Text → List Text
  | [], curr, pend => [(pend ++ curr).reverse]
  | c :: cs, curr, pend =>
    match c.isWhitespace with
    | true => simpleSplitAux cs curr (c :: pend)
    | false =>
      match !pend.isEmpty && headIsTerm curr && isUpperAZ c with
      | true => curr.reverse :: simpleSplitAux cs [c] []
      | false => simpleSplitAux cs (c :: (pend ++ curr)) []

/-- `_simple_sentence_split` (`chunker.py` lines 65-78): regex split,
then strip each piece and drop empty ones. -/
def simpleSentenceSplit (t : Text) : List Text :=
  (simpleSplitAux t [] []).filterMap fun s =>
    if stripChars s = [] then none else some (stripChars s)

/-- Unit size used by `_chunk_by_sentences` (`chunker.py` lines 196/209):
character length under the sentence method, word count otherwise. -/
def sentSize (cfg : ChunkerConfig) (s : Text) : Nat :=
  if cfg.chunking_method = "sentence" then pyLen s else wordCount s

/-- Backward walk collecting the overlap seed (`chunker.py` lines
206-214 and 270-277): take trailing units while the accumulated size
stays within `maxOv`.  `acc`/`sz` are the collected seed and its size. -/
def overlapSeedGo (size : Text → Nat) (maxOv : Int) :
    List Text → List Text → Nat → List Text × Nat
  | [], acc, sz => (acc, sz)
  | s :: rest, acc, sz =>
    if (sz + size s : Int) ≤ maxOv then overlapSeedGo size maxOv rest (s :: acc) (sz + size s)
    else (acc, sz)

/-- Overlap seed of a just-closed chunk: walk its units backward. -/
def overlapSeed (size : Text → Nat) (maxOv : Int) (units : List Text) : List Text × Nat :=
  overlapSeedGo size maxOv units.reverse [] 0

/-- Loop of `_chunk_by_sentences` (`chunker.py` lines 195-226):
greedily accumulate sentences, cutting with an overlap seed. -/
def chunkSentGo (cfg : ChunkerConfig) :
    List Text → List Text → List Text → Nat → List Text
  | [], chunks, current, _ =>
    if current = [] then chunks else chunks ++ [pyJoin [' '] current]
  | s :: rest, chunks, current, csize =>
    let ssize := sentSize cfg s
    if ((csize + ssize : Nat) : Int) > cfg.chunk_size ∧ current ≠ [] then
      let seed :=
        if cfg.chunk_overlap > 0 then overlapSeed (sentSize cfg) cfg.chunk_overlap current
        else ([], 0)
      chunkSentGo cfg rest (chunks ++ [pyJoin [' '] current]) (seed.1 ++ [s]) (seed.2 + ssize)
    else chunkSentGo cfg rest chunks (current ++ [s]) (csize + ssize)

/-- `_chunk_by_sentences` (`chunker.py` lines 177-228); the sentence
tokenizer in use is passed as `tok`. -/
def chunkBySentences (cfg : ChunkerConfig) (tok : Text → List Text) (text : Text) :
    List Text :=
  chunkSentGo cfg (tok text) [] [] 0

/-- Paragraph list of a text (`chunker.py` line 241): split on blank
lines, strip, drop empty. -/
def splitBlankGo : Text → Text → List Text
  | [], acc => [acc.reverse]
  | '\n' :: '\n' :: rest, acc => acc.reverse :: splitBlankGo rest []
  | c :: rest, acc => splitBlankGo rest (c :: acc)

/-- Python `text.split("\n\n")` followed by the strip-and-filter
comprehension of `chunker.py` line 241. -/
def paragraphsOf (text : Text) : List Text :=
  (splitBlankGo text []).filterMap fun p =>
    if stripChars p = [] then none else some (stripChars p)

/-- Loop of the `preserve_paragraphs` branch of `_chunk_by_paragraphs`
(`chunker.py` lines 249-288): group paragraphs, recursively splitting an
oversized paragraph through the sentence method. -/
def chunkParaGo (cfg : ChunkerConfig) (tok : Text → List Text) :
    List Text → List Text → List Text → Nat → List Text
  | [], chunks, current, _ =>
    if current = [] then chunks else chunks ++ [pyJoin ['\n', '\n'] current]
  | p :: rest, chunks, current, csize =>
    let psize := pyLen p
    if (psize : Int) > cfg.chunk_size then
      let chunks2 := if current = [] then chunks else chunks ++ [pyJoin ['\n', '\n'] current]
      chunkParaGo cfg tok rest (chunks2 ++ chunkBySentences cfg tok p) [] 0
    else if ((csize + psize : Nat) : Int) > cfg.chunk_size ∧ current ≠ [] then
      let seed :=
        if cfg.chunk_overlap > 0 then overlapSeed pyLen cfg.chunk_overlap current
        else ([], 0)
      chunkParaGo cfg tok rest (chunks ++ [pyJoin ['\n', '\n'] current]) (seed.1 ++ [p]) (seed.2 + psize)
    else chunkParaGo cfg tok rest chunks (current ++ [p]) (csize + psize)

/-- `_chunk_by_paragraphs` (`chunker.py` lines 230-293). -/
def chunkByParagraphs (cfg : ChunkerConfig) (tok : Text → List Text) (text : Text) :
    List Text :=
  let paragraphs := paragraphsOf text
  if cfg.preserve_paragraphs then chunkParaGo cfg tok paragraphs [] [] 0
  else chunkBySentences cfg tok (pyJoin ['\n'] paragraphs)

/-- `int(max_tokens * 0.1)` (`chunker.py` line 314): Python `int()`
truncates toward zero; for the integer token counts arising here the
float product is exact enough that this equals toward-zero division. -/
def tokenTenth (maxT : Int) : Int := Int.tdiv maxT 10

/-- Patterns of the token-method boundary snap (`chunker.py` line 329). -/
def tokenSnapPatterns : List Text := [toText ". ", toText "! ", toText "? "]

/-- Worker for `snapTok`: first pattern that occurs wins. -/
def snapTokGo (ct : Text) (ss : Int) : List Text → Text
  | [] => ct
  | p :: ps =>
    let idx := pyRfind ct p ss (pyLen ct)
    if idx ≠ -1 then pyslice ct 0 (idx + (pyLen p : Int)) else snapTokGo ct ss ps

/-- Boundary snap of the token method (`chunker.py` lines 326-333);
`int(len(chunk_text) * 0.9)` is modelled by toward-zero division. -/
def snapTok (ct : Text) : Text :=
  snapTokGo ct (Int.tdiv ((pyLen ct : Int) * 9) 10) tokenSnapPatterns

/-- Chunk emitted by one iteration of the token loop (`chunker.py`
lines 319-336); the empty list models the skipped empty chunk. -/
def chunkTokensEmit (maxT : Int) (preserve : Bool) (decode : List Nat → Text)
    (tokens : List Nat) (start : Int) : List Text :=
  let e := start + maxT
  let ct0 := decode (pyslice tokens start e)
  let ct := if preserve ∧ e < (lenGo 0 tokens : Int) then snapTok ct0 else ct0
  if stripChars ct = [] then [] else [stripChars ct]

/-- Loop of `_chunk_by_tokens` (`chunker.py` lines 316-339).  Fuel
exhaustion models non-termination (possible only for `maxT ≤ 0`). -/
def chunkTokensGo (maxT ovT : Int) (preserve : Bool) (decode : List Nat → Text)
    (tokens : List Nat) : Nat → Int → List Text
  | 0, _ => []
  | fuel + 1, start =>
    if start < (lenGo 0 tokens : Int) then
      chunkTokensEmit maxT preserve decode tokens start ++
        chunkTokensGo maxT ovT preserve decode tokens fuel (start + maxT - ovT)
    else []

/-- External tokenizer capability (tiktoken interface, spec section 6). -/
structure Tok where
  encode : Text → List Nat
  decode : List Nat → Text

/-- `_chunk_by_tokens` (`chunker.py` lines 295-341): with no encoder the
method falls back to word chunking; otherwise encode, cut every
`max_tokens_per_chunk` tokens, restart the cursor `int(max_tokens*0.1)`
tokens back. -/
def chunkByTokens (cfg : ChunkerConfig) (enc : Option Tok) (text : Text) : List Text :=
  match enc with
  | none => chunkByWords cfg text
  | some tk =>
    let tokens := tk.encode text
    chunkTokensGo cfg.max_tokens_per_chunk (tokenTenth cfg.max_tokens_per_chunk)
      cfg.preserve_sentences tk.decode tokens (lenGo 0 tokens + 1) 0

/-! ## The engine (`ContentChunker`) -/

/-- External resources available at runtime (spec section 6): the NLTK
sentence splitter and the tiktoken encoder, either possibly absent. -/
structure ExtRes where
  nltk : Option (Text → List Text)
  tiktoken : Option Tok

/-- Engine state (`chunker.py` lines 20-39): held configuration plus the
lazily initialized sentence tokenizer and token encoder. -/
structure Chunker where
  config : ChunkerConfig
  sentence_tokenizer : Option (Text → List Text)
  token_encoder : Option Tok

/-- `_initialize_sentence_tokenizer` (`chunker.py` lines 41-63): use the
external NLTK splitter when configured and available, otherwise the
simple regex splitter. -/
def pickSentTok (cfg : ChunkerConfig) (ext : ExtRes) : Text → List Text :=
  if cfg.sentence_tokenizer = "nltk" then
    match ext.nltk with
    | some f => f
    | none => simpleSentenceSplit
  else simpleSentenceSplit

/-- `ContentChunker.__init__` (`chunker.py` lines 20-39) together with
`_initialize_token_encoder` (lines 80-88): when the token encoder is
unavailable the constructor overwrites `config.chunking_method` with
`"word"` (line 88). -/
def Chunker.init (cfg : ChunkerConfig) (ext : ExtRes) : Chunker :=
  let c0 : Chunker := { config := cfg, sentence_tokenizer := none, token_encoder := none }
  let c1 :=
    if cfg.chunking_method = "sentence" ∨ cfg.chunking_method = "paragraph" then
      { c0 with sentence_tokenizer := some (pickSentTok cfg ext) }
    else c0
  if c1.config.chunking_method = "token" then
    match ext.tiktoken with
    | some tk => { c1 with token_encoder := some tk }
    | none => { c1 with config := { c1.config with chunking_method := "word" } }
  else c1

/-- Lazy re-initialization check of `_chunk_by_sentences`
(`chunker.py` lines 187-188). -/
def Chunker.resolveSent (c : Chunker) (ext : ExtRes) : Chunker :=
  match c.sentence_tokenizer with
  | some _ => c
  | none => { c with sentence_tokenizer := some (pickSentTok c.config ext) }

/-- The sentence tokenizer held by the engine (set after `resolveSent`). -/
def Chunker.sentTok (c : Chunker) : Text → List Text :=
  c.sentence_tokenizer.getD simpleSentenceSplit

/-- Errors of the `chunk` entry point (`ChunkingError` in
`utils/exceptions.py`), by raise site. -/
inductive ChunkError where
  | emptyText
  | unknownMethod (m : String)
  | chunkingFailed (msg : String)
  | noValidChunks
deriving DecidableEq, Repr

/-- Method dispatch of `chunk` (`chunker.py` lines 420-447), including
the wrapping of non-`ChunkingError` exceptions into
`ChunkingError("Chunking failed: ...")`.  Returns the produced raw
chunks and the possibly updated engine state. -/
def dispatchChunks (c : Chunker) (ext : ExtRes) (text : Text) :
    Except ChunkError (List Text) × Chunker :=
  if c.config.chunking_method = "character" then
    (match chunkByCharacters c.config text with
      | .ok l => .ok l
      | .error e => .error (.chunkingFailed (pyErrMsg e)), c)
  else if c.config.chunking_method = "word" then
    (.ok (chunkByWords c.config text), c)
  else if c.config.chunking_method = "sentence" then
    let c2 := c.resolveSent ext
    (.ok (chunkBySentences c2.config c2.sentTok text), c2)
  else if c.config.chunking_method = "paragraph" then
    let c2 := c.resolveSent ext
    (.ok (chunkByParagraphs c2.config c2.sentTok text), c2)
  else if c.config.chunking_method = "token" then
    (.ok (chunkByTokens c.config c.token_encoder text), c)
  else (.error (.unknownMethod c.config.chunking_method), c)

/-- Post-processing filters of `chunk` (`chunker.py` lines 449-455):
drop empty chunks, then drop chunks below the minimum length. -/
def postFilter (cfg : ChunkerConfig) (chunks : List Text) : List Text :=
  let c1 :=
    if cfg.skip_empty_chunks then chunks.filter (fun ch => !(stripChars ch).isEmpty)
    else chunks
  if cfg.min_chunk_length > 0 then
    c1.filter (fun ch => decide (cfg.min_chunk_length ≤ (lenGo 0 (stripChars ch) : Int)))
  else c1

/-- One chunk record (`_create_chunk_metadata`, `chunker.py` lines
343-384).  Keys only present under a flag are `Option` fields. -/
structure ChunkMeta where
  text : Text
  chunk_index : Nat
  total_chunks : Nat
  chunk_length : Option Nat
  word_count : Option Nat
  is_first : Option Bool
  is_last : Option Bool
  overlap_length : Option Nat
deriving DecidableEq, Repr

/-- Suffix-prefix scan of `_create_chunk_metadata` (`chunker.py` lines
373-378): the largest `i` with `prev.endswith(cur[:i])`, else `0`. -/
def sharedBoundary (prev cur : Text) : Nat :=
  (List.range' 1 (min (pyLen cur) (pyLen prev))).foldl
    (fun best i => if (cur.take i).isSuffixOf prev then i else best) 0

/-- Worker of `_create_chunk_metadata` (`chunker.py` lines 354-384). -/
def metaGo (cfg : ChunkerConfig) (total : Nat) :
    List Text → Nat → Option Text → List ChunkMeta
  | [], _, _ => []
  | ch :: rest, idx, prev =>
    { text := ch
      chunk_index := idx
      total_chunks := total
      chunk_length := if cfg.include_chunk_metadata then some (pyLen ch) else none
      word_count := if cfg.include_chunk_metadata then some (wordCount ch) else none
      is_first := if cfg.include_chunk_metadata then some (decide (idx = 0)) else none
      is_last := if cfg.include_chunk_metadata then some (decide (idx = total - 1)) else none
      overlap_length :=
        if cfg.include_overlap_info ∧ 0 < idx then some (sharedBoundary (prev.getD []) ch)
        else none } :: metaGo cfg total rest (idx + 1) (some ch)

/-- `_create_chunk_metadata` (`chunker.py` lines 343-384). -/
def makeChunkMeta (cfg : ChunkerConfig) (chunks : List Text) : List ChunkMeta :=
  metaGo cfg (lenGo 0 chunks) chunks 0 none

/-- Sum of chunk lengths, for the averaged diagnostic. -/
def sumLens : List Text → Nat → Nat
  | [], n => n
  | ch :: rest, n => sumLens rest (n + pyLen ch)

/-- Result dictionary of `chunk` (`chunker.py` lines 469-477). -/
structure ChunkResult where
  chunks : List ChunkMeta
  chunk_count : Nat
  chunking_method : String
  chunk_size : Int
  overlap : Int
  average_chunk_length : Rat
  chunk_time : Int
deriving DecidableEq, Repr

/-- Time-independent part of `ContentChunker.chunk` (`chunker.py` lines
386-486): validation, dispatch, filtering, metadata.  `chunk_time` is
filled in by `chunkRun`.  The `isinstance(text, str)` guard always
passes in this embedding, where `text` can only be a string. -/
def Chunker.chunkCore (c : Chunker) (ext : ExtRes) (text : Text) :
    Except ChunkError ChunkResult × Chunker :=
  if stripChars text = [] then (.error .emptyText, c)
  else
    match dispatchChunks c ext text with
    | (.error e, c2) => (.error e, c2)
    | (.ok raw, c2) =>
      let chunks := postFilter c2.config raw
      if chunks = [] then (.error .noValidChunks, c2)
      else
        (.ok
          { chunks := makeChunkMeta c2.config chunks
            chunk_count := lenGo 0 chunks
            chunking_method := c2.config.chunking_method
            chunk_size := c2.config.chunk_size
            overlap := c2.config.chunk_overlap
            average_chunk_length := (sumLens chunks 0 : Rat) / (lenGo 0 chunks : Rat)
            chunk_time := 0 }, c2)

/-- `ContentChunker.chunk` (`chunker.py` lines 386-486) with the two
`time.time()` readings passed in explicitly as `t0`, `t1`. -/
def Chunker.chunkRun (c : Chunker) (ext : ExtRes) (text : Text) (t0 t1 : Int) :
    Except ChunkError ChunkResult × Chunker :=
  let r := c.chunkCore ext text
  (r.1.map (fun res => { res with chunk_time := t1 - t0 }), r.2)

/-- `Except.isOk` as a boolean. -/
def isOkE {ε α : Type} : Except ε α → Bool
  | .ok _ => true
  | .error _ => false

/-! ## Concrete instances used by the claims -/

/-- Runtime with neither NLTK nor tiktoken available. -/
def ext0 : ExtRes := { nltk := none, tiktoken := none }

def cfgC1 : ChunkerConfig := { chunking_method := "character", chunk_size := 1000, chunk_overlap := 0 }

def textC1 : Text := toText "Hello world."

def cfgC10 : ChunkerConfig := { chunking_method := "character" }

def textC10 : Text := toText "Sample policy text."

/-- Concrete losslessly round-tripping tokenizer: one token per character. -/
def tokC2 : Tok := { encode := fun t => t.map Char.toNat, decode := fun l => l.map Char.ofNat }

def cfgC2 : ChunkerConfig :=
  { chunking_method := "token", max_tokens_per_chunk := 20, chunk_overlap := 5,
    preserve_sentences := false }

def textC2 : Text := toText "ABCDEFGHIJKLMNOPQRSTUVWXYZabcd"

/-- A 40-character sentence of 10 words. -/
def sentA : Text := toText "Aaaaaaaaaaaa aa aa aa aa aa aa aa aa aa."

/-- A 30-character sentence of 10 words. -/
def sentB : Text := toText "Aa aa aa aa aa aa aa aa aa aa."

/-- One single paragraph of exactly 5000 characters: 161 sentences. -/
def para5000 : Text := pyJoin [' '] (sentA :: List.replicate 160 sentB)

def cfgC3 : ChunkerConfig :=
  { chunking_method := "paragraph", chunk_size := 500, chunk_overlap := 0,
    sentence_tokenizer := "simple", preserve_paragraphs := true }

def cfgC4 : ChunkerConfig :=
  { chunking_method := "sentence", chunk_size := 10, chunk_overlap := 10,
    sentence_tokenizer := "simple", min_chunk_length := 1 }

def textC4 : Text := toText "Aaaa bbb. Cccc ddd. Eee fff."

def scC4 : ScraperConfig := { chunker := cfgC4 }

def cfgC5 : ChunkerConfig := { chunking_method := "token" }

def cfgC6 : ChunkerConfig := { chunking_method := "word", min_chunk_length := 1 }

def textC6 : Text := toText "aa bb"

def cfgC7 : ChunkerConfig := { chunking_method := "word", chunk_size := 4, chunk_overlap := 1 }

def textC7 : Text := toText "alpha bravo china delta echo fox golf hotel india julia"

def unitsC8 : List Text := [toText "abc", toText "de"]

def cfgC9 : ChunkerConfig := { chunking_method := "word", min_chunk_length := 1000 }

def textC9 : Text := toText "aa bb cc dd ee"

deriving instance DecidableEq for Except

/-! ## Bridge lemmas -/

/-- The boolean text equality decides propositional equality. -/
theorem eqChars_eq : ∀ x y : Text, eqChars x y = true → x = y := by
  intro x
  induction x with
  | nil =>
    intro y h
    cases y with
    | nil => rfl
    | cons b bs => simp [eqChars, List.isEmpty] at h
  | cons a as_ ih =>
    intro y h
    cases y with
    | nil => simp [eqChars] at h
    | cons b bs =>
      rw [eqChars] at h
      cases hab : a == b with
      | false => rw [hab] at h; exact absurd h (by simp)
      | true =>
        rw [hab] at h
        have h1 : a = b := by
          have := eq_of_beq hab
          exact this
        rw [h1, ih bs h]

/-- The boolean text-list equality decides propositional equality. -/
theorem eqTextList_eq : ∀ x y : List Text, eqTextList x y = true → x = y := by
  intro x
  induction x with
  | nil =>
    intro y h
    cases y with
    | nil => rfl
    | cons b bs => simp [eqTextList, List.isEmpty] at h
  | cons a as_ ih =>
    intro y h
    cases y with
    | nil => simp [eqTextList] at h
    | cons b bs =>
      rw [eqTextList] at h
      cases hab : eqChars a b with
      | false => rw [hab] at h; exact absurd h (by simp)
      | true => rw [hab] at h; rw [eqChars_eq a b hab, ih bs h]

/-- The forced length counter computes list length. -/
theorem lenGo_eq {α : Type} : ∀ (l : List α) (n : Nat), lenGo n l = n + l.length := by
  intro l
  induction l with
  | nil => intro n; simp [lenGo]
  | cons c cs ih =>
    intro n
    cases n with
    | zero =>
      show lenGo 1 cs = 0 + (c :: cs).length
      rw [ih 1, List.length_cons]
      omega
    | succ k =>
      show lenGo (k + 2) cs = (k + 1) + (c :: cs).length
      rw [ih (k + 2), List.length_cons]
      omega

/-! ## Claim theorems -/

/-- C1.  The claim asserts that chunking the text "Hello world." with
method character, chunk_size 1000, overlap 0 succeeds with exactly one
chunk.  In fact `chunk` raises `ChunkingError("Chunking failed: ...")`:
line 137 of `chunker.py` evaluates `start <= chunks[-1:]`, an `int`/`list`
comparison that raises `TypeError` in every iteration of the character
loop, so the character method never returns chunks for any nonempty
text.  This theorem evaluates the engine at the claimed input. -/
theorem c1_character_single_chunk_bug :
    ((Chunker.init cfgC1 ext0).chunkRun ext0 textC1 0 0).1 =
      .error (ChunkError.chunkingFailed (pyErrMsg PyErr.typeErrorIntLeList)) := by
  decide

/-- C10.  The claim asserts `chunk` fails only when precondition
violations or filtering require it, and that empty input fails with the
empty-text error.  The empty-text part holds (third conjunct), but the
only-if direction is broken by the line-137 `int`/`list` comparison bug:
a valid nonempty text under the character method (default policy
otherwise) fails although nothing requires failure. -/
theorem c10_failure_without_required_cause :
    stripChars textC10 ≠ [] ∧
    ((Chunker.init cfgC10 ext0).chunkRun ext0 textC10 0 0).1 =
      .error (ChunkError.chunkingFailed (pyErrMsg PyErr.typeErrorIntLeList)) ∧
    ((Chunker.init cfgC10 ext0).chunkRun ext0 (toText "   ") 0 0).1 =
      .error ChunkError.emptyText := by
  decide

/-- C2, counterexample.  The claim asserts the token method restarts the
cursor at `end_of_previous_chunk - configured_overlap`.  With
`max_tokens_per_chunk = 20` and configured `chunk_overlap = 5`, a
30-token text yields chunks whose shared boundary is 2 tokens
(`int(20 * 0.1)`), not 5: the configured overlap is not what is carried
over. -/
theorem c2_counterexample :
    chunkByTokens cfgC2 (some tokC2) textC2 =
      [toText "ABCDEFGHIJKLMNOPQRST", toText "STUVWXYZabcd"] ∧
    sharedBoundary (toText "ABCDEFGHIJKLMNOPQRST") (toText "STUVWXYZabcd") = 2 ∧
    cfgC2.chunk_overlap = 5 := by
  decide

/-- C3, counterexample.  The claim asserts every chunk produced from a
single 5000-character paragraph (method paragraph, target 500,
grouping preserved) is at most 500 characters unless it is a single
oversized sentence.  Here every sentence is at most 40 characters, yet a
produced chunk exceeds 500 characters: the recursive sentence split
under the paragraph method measures sentence sizes in words
(`chunker.py` line 196), not characters. -/
theorem c3_counterexample :
    pyLen para5000 = 5000 ∧
    paragraphsOf para5000 = [para5000] ∧
    (∀ s ∈ simpleSentenceSplit para5000, pyLen s ≤ 40) ∧
    ∃ ch ∈ chunkByParagraphs cfgC3 simpleSentenceSplit para5000, 500 < pyLen ch :=
  ⟨by decide, eqTextList_eq _ _ (by decide), by decide, by decide⟩

/-- C3, amended.  On the same 5000-character single paragraph the
oversized paragraph is recursively split at sentence granularity into
four chunks, none dropped (the concatenation of the chunks' word
sequences is exactly the paragraph's word sequence), and every chunk is
at most 500 words, the unit the recursive split actually bounds. -/
theorem c3_amended_word_bound :
    lenGo 0 (chunkByParagraphs cfgC3 simpleSentenceSplit para5000) = 4 ∧
    (∀ ch ∈ chunkByParagraphs cfgC3 simpleSentenceSplit para5000, wordCount ch ≤ 500) ∧
    ((chunkByParagraphs cfgC3 simpleSentenceSplit para5000).map splitWs).flatten =
      splitWs para5000 :=
  ⟨by decide, by decide, eqTextList_eq _ _ (by decide)⟩

/-- C4, counterexample.  The claim asserts that every `chunk` call under
a policy with `overlap ≥ chunk_size` fails with an invalid-input error
instead of returning chunks.  `ContentChunker.chunk` performs no policy
validation: with the sentence method, `chunk_size = chunk_overlap = 10`
and a valid text, it returns a chunk sequence. -/
theorem c4_counterexample :
    cfgC4.chunk_size ≤ cfgC4.chunk_overlap ∧
    stripChars textC4 ≠ [] ∧
    isOkE ((Chunker.init cfgC4 ext0).chunkRun ext0 textC4 0 0).1 = true := by
  decide

/-- C5, counterexample.  The claim asserts that neither construction nor
chunking ever mutates the configuration.  Constructing the engine with
method token while the tiktoken encoder is unavailable overwrites
`config.chunking_method` with "word" (`chunker.py` line 88). -/
theorem c5_counterexample :
    cfgC5.chunking_method = "token" ∧
    (Chunker.init cfgC5 ext0).config.chunking_method = "word" := by
  decide

/-- C6, counterexample.  The claim asserts two runs on identical text
and policy agree on every field of the result.  The result includes
`chunk_time`, the measured wall-clock duration, so two runs with
different time readings differ. -/
theorem c6_counterexample :
    ((Chunker.init cfgC6 ext0).chunkRun ext0 textC6 0 1).1 ≠
    ((Chunker.init cfgC6 ext0).chunkRun ext0 textC6 0 2).1 := by
  intro h
  exact absurd (congrArg (Except.map ChunkResult.chunk_time) h) (by decide)

/-- Characterization of the backward overlap walk: it returns some
prefix of the reversed unit list (restored to order) and the sum of the
collected sizes. -/
theorem overlapSeedGo_spec (size : Text → Nat) (maxOv : Int) :
    ∀ (rs acc : List Text) (sz : Nat),
      ∃ p, p <+: rs ∧
        (overlapSeedGo size maxOv rs acc sz).1 = p.reverse ++ acc ∧
        (overlapSeedGo size maxOv rs acc sz).2 = sz + (p.map size).sum := by
  intro rs
  induction rs with
  | nil =>
    intro acc sz
    exact ⟨[], List.nil_prefix, by simp [overlapSeedGo], by simp [overlapSeedGo]⟩
  | cons s rest ih =>
    intro acc sz
    by_cases h : (sz : Int) + (size s : Int) ≤ maxOv
    · obtain ⟨p, hp, h1, h2⟩ := ih (s :: acc) (sz + size s)
      refine ⟨s :: p, ?_, ?_, ?_⟩
      · exact List.cons_prefix_cons.mpr ⟨rfl, hp⟩
      · rw [overlapSeedGo, if_pos h, h1]
        simp
      · rw [overlapSeedGo, if_pos h, h2]
        simp
        omega
    · exact ⟨[], List.nil_prefix, by rw [overlapSeedGo, if_neg h]; simp,
        by rw [overlapSeedGo, if_neg h]; simp⟩

/-- The backward overlap walk never exceeds the bound it starts under. -/
theorem overlapSeedGo_bound (size : Text → Nat) (maxOv : Int) :
    ∀ (rs acc : List Text) (sz : Nat), (sz : Int) ≤ maxOv →
      ((overlapSeedGo size maxOv rs acc sz).2 : Int) ≤ maxOv := by
  intro rs
  induction rs with
  | nil => intro acc sz h; simpa [overlapSeedGo] using h
  | cons s rest ih =>
    intro acc sz h
    by_cases hc : (sz : Int) + (size s : Int) ≤ maxOv
    · rw [overlapSeedGo, if_pos hc]
      exact ih (s :: acc) (sz + size s) (by push_cast; omega)
    · rw [overlapSeedGo, if_neg hc]
      exact h

/-- C8.  For the sentence and paragraph methods, the overlap seed
carried into the next chunk (`overlapSeed`, used by `chunkSentGo` and
`chunkParaGo`) is always a contiguous trailing group of whole units of
the chunk just closed, and the accumulated size of the carried units —
in the same unit measure `size` the method uses — never exceeds the
configured positive overlap. -/
theorem c8_overlap_seed_whole_units (size : Text → Nat) (ov : Int) (units : List Text)
    (h : 0 < ov) :
    (overlapSeed size ov units).1 <:+ units ∧
    ((overlapSeed size ov units).2 : Int) ≤ ov ∧
    (overlapSeed size ov units).2 = ((overlapSeed size ov units).1.map size).sum := by
  obtain ⟨p, hp, h1, h2⟩ := overlapSeedGo_spec size ov units.reverse [] 0
  have hb := overlapSeedGo_bound size ov units.reverse [] 0 (by omega)
  refine ⟨?_, ?_, ?_⟩
  · rw [overlapSeed, h1, List.append_nil]
    have hpp : p.reverse.reverse <+: units.reverse := by
      rw [List.reverse_reverse]; exact hp
    exact List.reverse_prefix.mp hpp
  · rw [overlapSeed]
    exact hb
  · rw [overlapSeed, h1, h2, List.append_nil]
    simp [List.sum_reverse]

/-- C8, witness at a concrete instance. -/
theorem c8_witness :
    (overlapSeed pyLen 5 unitsC8).1 <:+ unitsC8 ∧
    ((overlapSeed pyLen 5 unitsC8).2 : Int) ≤ 5 ∧
    (overlapSeed pyLen 5 unitsC8).2 = ((overlapSeed pyLen 5 unitsC8).1.map pyLen).sum :=
  c8_overlap_seed_whole_units pyLen 5 unitsC8 (by decide)

/-- C9.  If, after the empty-chunk filter and the minimum-length filter,
zero chunks survive, `chunk` fails with the "no valid chunks" error and
returns no partial result (`chunker.py` lines 457-462). -/
theorem c9_no_valid_chunks (c : Chunker) (ext : ExtRes) (text : Text) (t0 t1 : Int)
    (hne : stripChars text ≠ [])
    (raw : List Text) (c2 : Chunker)
    (hd : dispatchChunks c ext text = (Except.ok raw, c2))
    (hf : postFilter c2.config raw = []) :
    (c.chunkRun ext text t0 t1).1 = Except.error ChunkError.noValidChunks := by
  unfold Chunker.chunkRun Chunker.chunkCore
  rw [if_neg hne, hd]
  dsimp only
  rw [hf]
  rfl

/-- C9, witness: five words under the word method with
`min_chunk_length = 1000` leave no surviving chunk. -/
theorem c9_witness :
    ((Chunker.init cfgC9 ext0).chunkRun ext0 textC9 0 0).1 =
      Except.error ChunkError.noValidChunks :=
  c9_no_valid_chunks (Chunker.init cfgC9 ext0) ext0 textC9 0 0 (by decide)
    [textC9] (Chunker.init cfgC9 ext0) (by rfl) (by decide)

/-- Lazy sentence-tokenizer resolution does not touch the config. -/
theorem resolveSent_config (c : Chunker) (ext : ExtRes) :
    (c.resolveSent ext).config = c.config := by
  unfold Chunker.resolveSent
  cases c.sentence_tokenizer <;> rfl

/-- Method dispatch does not touch the config. -/
theorem dispatchChunks_config (c : Chunker) (ext : ExtRes) (text : Text) :
    ((dispatchChunks c ext text).2).config = c.config := by
  unfold dispatchChunks
  split_ifs <;> simp [resolveSent_config]

/-- C5, amended.  Engine construction leaves the configuration intact
except in exactly one case: method token with the tiktoken encoder
unavailable, where `chunking_method` is overwritten with "word" and
nothing else changes.  An invocation of `chunk` never mutates the
configuration (it may only fill in the lazily initialized sentence
tokenizer). -/
theorem c5_amended_config_mutation :
    (∀ (cfg : ChunkerConfig) (ext : ExtRes),
      (Chunker.init cfg ext).config = cfg ∨
      (cfg.chunking_method = "token" ∧ ext.tiktoken = none ∧
        (Chunker.init cfg ext).config = { cfg with chunking_method := "word" })) ∧
    (∀ (c : Chunker) (ext : ExtRes) (text : Text) (t0 t1 : Int),
      ((c.chunkRun ext text t0 t1).2).config = c.config) := by
  constructor
  · intro cfg ext
    by_cases h2 : cfg.chunking_method = "token"
    · have h1 : ¬ (cfg.chunking_method = "sentence" ∨ cfg.chunking_method = "paragraph") := by
        simp [h2]
      cases htk : ext.tiktoken with
      | some tk => exact Or.inl (by simp [Chunker.init, h1, h2, htk])
      | none => exact Or.inr ⟨h2, rfl, by simp [Chunker.init, h1, h2, htk]⟩
    · refine Or.inl ?_
      by_cases h1 : cfg.chunking_method = "sentence" ∨ cfg.chunking_method = "paragraph"
      · simp [Chunker.init, h1, h2]
      · simp [Chunker.init, h1, h2]
  · intro c ext text t0 t1
    show ((c.chunkCore ext text).2).config = c.config
    unfold Chunker.chunkCore
    by_cases hs : stripChars text = []
    · rw [if_pos hs]
    · rw [if_neg hs]
      rcases hd : dispatchChunks c ext text with ⟨r, c2⟩
      have hcfg := dispatchChunks_config c ext text
      rw [hd] at hcfg
      cases r with
      | error e => exact hcfg
      | ok raw =>
        simp only []
        split
        · exact hcfg
        · exact hcfg

/-- C6, amended.  For identical text and policy the two runs agree on
the returned engine state and on every field of the result except
`chunk_time`, which reflects the wall-clock readings. -/
theorem c6_amended_deterministic_modulo_time :
    ∀ (c : Chunker) (ext : ExtRes) (text : Text) (t0 t1 u0 u1 : Int),
      (c.chunkRun ext text t0 t1).1.map (fun r => { r with chunk_time := 0 }) =
        (c.chunkRun ext text u0 u1).1.map (fun r => { r with chunk_time := 0 }) ∧
      (c.chunkRun ext text t0 t1).2 = (c.chunkRun ext text u0 u1).2 := by
  intro c ext text t0 t1 u0 u1
  refine ⟨?_, rfl⟩
  show ((c.chunkCore ext text).1.map _).map _ = ((c.chunkCore ext text).1.map _).map _
  cases (c.chunkCore ext text).1 <;> rfl

/-- C2, amended.  When the token encoder is available, the configured
`chunk_overlap` plays no role in the token method; at each cut the
cursor restarts at `end_of_previous_chunk - int(0.1 * max_tokens)`
(`tokenTenth`), i.e. ten percent of `max_tokens_per_chunk` is carried
over, whatever the configured overlap is. -/
theorem c2_amended_token_tenth_overlap :
    (∀ (cfg : ChunkerConfig) (ov : Int) (tk : Tok) (text : Text),
      chunkByTokens { cfg with chunk_overlap := ov } (some tk) text =
        chunkByTokens cfg (some tk) text) ∧
    (∀ (maxT ovT : Int) (preserve : Bool) (dec : List Nat → Text) (tokens : List Nat)
      (fuel : Nat) (start : Int),
      start < (lenGo 0 tokens : Int) →
      chunkTokensGo maxT ovT preserve dec tokens (fuel + 1) start =
        chunkTokensEmit maxT preserve dec tokens start ++
          chunkTokensGo maxT ovT preserve dec tokens fuel (start + maxT - ovT)) ∧
    (∀ (cfg : ChunkerConfig) (tk : Tok) (text : Text),
      chunkByTokens cfg (some tk) text =
        chunkTokensGo cfg.max_tokens_per_chunk (tokenTenth cfg.max_tokens_per_chunk)
          cfg.preserve_sentences tk.decode (tk.encode text)
          (lenGo 0 (tk.encode text) + 1) 0) := by
  refine ⟨fun cfg ov tk text => rfl, ?_, fun cfg tk text => rfl⟩
  intro maxT ovT preserve dec tokens fuel start h
  rw [chunkTokensGo, if_pos h]

/-- C2, amended, witness at a concrete instance. -/
theorem c2_amended_witness :
    chunkTokensGo 2 1 false tokC2.decode [65, 66, 67] 3 0 =
      chunkTokensEmit 2 false tokC2.decode [65, 66, 67] 0 ++
        chunkTokensGo 2 1 false tokC2.decode [65, 66, 67] 2 (0 + 2 - 1) :=
  c2_amended_token_tenth_overlap.2.1 2 1 false tokC2.decode [65, 66, 67] 2 0 (by decide)

/-- C4, amended.  Policy validation lives in `ScraperConfig.validate`
(called by the pipeline constructor, not by `chunk`): whenever
`chunk_overlap ≥ chunk_size`, `validate` raises a `ValueError`, so a
validated configuration can never carry that violation into `chunk`. -/
theorem c4_amended_validate_rejects (sc : ScraperConfig)
    (h : sc.chunker.chunk_size ≤ sc.chunker.chunk_overlap) :
    ∃ msg, ScraperConfig.validate sc = .error msg := by
  unfold ScraperConfig.validate
  split_ifs <;> exact ⟨_, rfl⟩

/-- C4, amended, witness at a concrete instance. -/
theorem c4_amended_witness : ∃ msg, ScraperConfig.validate scC4 = .error msg :=
  c4_amended_validate_rejects scC4 (by decide)

/-- Words produced by `splitWs` are nonempty and contain no whitespace. -/
theorem splitWsAux_words :
    ∀ (cs : Text) (acc : Text), (∀ a ∈ acc, a.isWhitespace = false) →
      ∀ w ∈ splitWsAux cs acc, w ≠ [] ∧ ∀ ch ∈ w, ch.isWhitespace = false := by
  intro cs
  induction cs with
  | nil =>
    intro acc hacc w hw
    rw [splitWsAux] at hw
    cases he : acc.isEmpty with
    | true => rw [he] at hw; simp at hw
    | false =>
      rw [he] at hw
      simp at hw
      subst hw
      have hne : acc ≠ [] := by
        intro hnil
        rw [hnil] at he
        simp [List.isEmpty] at he
      refine ⟨by simpa using hne, ?_⟩
      intro ch hch
      exact hacc ch (List.mem_reverse.mp hch)
  | cons c cs2 ih =>
    intro acc hacc w hw
    rw [splitWsAux] at hw
    cases hws : c.isWhitespace with
    | true =>
      rw [hws] at hw
      cases he : acc.isEmpty with
      | true =>
        rw [he] at hw
        exact ih [] (by simp) w hw
      | false =>
        rw [he] at hw
        rcases List.mem_cons.mp hw with h1 | h1
        · subst h1
          have hne : acc ≠ [] := by
            intro hnil
            rw [hnil] at he
            simp [List.isEmpty] at he
          refine ⟨by simpa using hne, ?_⟩
          intro ch hch
          exact hacc ch (List.mem_reverse.mp hch)
        · exact ih [] (by simp) w h1
    | false =>
      rw [hws] at hw
      refine ih (c :: acc) ?_ w hw
      intro a ha
      rcases List.mem_cons.mp ha with h1 | h1
      · subst h1; exact hws
      · exact hacc a h1

/-- A text containing a non-whitespace character does not strip to
empty. -/
theorem stripChars_ne_nil (s : Text) (h : ∃ c ∈ s, c.isWhitespace = false) :
    stripChars s ≠ [] := by
  obtain ⟨c, hcs, hcw⟩ := h
  intro hnil
  unfold stripChars at hnil
  rw [List.reverse_eq_nil_iff, List.dropWhile_eq_nil_iff] at hnil
  have hcd : c ∈ (s.dropWhile Char.isWhitespace).reverse := by
    rw [List.mem_reverse]
    have hsplit := List.takeWhile_append_dropWhile (p := Char.isWhitespace) (l := s)
    rcases List.mem_append.mp (by rw [hsplit]; exact hcs) with h1 | h1
    · exact absurd (List.mem_takeWhile_imp h1) (by simp [hcw])
    · exact h1
  have := hnil c hcd
  rw [hcw] at this
  exact absurd this (by simp)

/-- A join whose first block contains a non-whitespace character also
contains it. -/
theorem pyJoin_has_char (sep w : Text) (rest : List Text)
    (h : ∃ c ∈ w, c.isWhitespace = false) :
    ∃ c ∈ pyJoin sep (w :: rest), c.isWhitespace = false := by
  obtain ⟨c, hcw, hcf⟩ := h
  refine ⟨c, ?_, hcf⟩
  cases rest with
  | nil => simpa [pyJoin, List.intercalate] using hcw
  | cons b t =>
    have : pyJoin sep (w :: b :: t) = w ++ sep ++ pyJoin sep (b :: t) := by
      simp [pyJoin, List.intercalate, List.intersperse]
    rw [this]
    simp [hcw]

/-- A chunk joined from nonempty whitespace-free words survives
stripping. -/
theorem strip_join_ne_nil (ws2 : List Text) (hne : ws2 ≠ [])
    (hall : ∀ w ∈ ws2, w ≠ [] ∧ ∀ ch ∈ w, ch.isWhitespace = false) :
    stripChars (pyJoin [' '] ws2) ≠ [] := by
  cases ws2 with
  | nil => exact absurd rfl hne
  | cons w0 rest =>
    have hw0 := hall w0 (by simp)
    apply stripChars_ne_nil
    apply pyJoin_has_char
    cases hw : w0 with
    | nil => exact absurd hw hw0.1
    | cons c0 t0 =>
      exact ⟨c0, by simp, hw0.2 c0 (by rw [hw]; simp)⟩

/-- Evaluation of a Python slice under in-range natural bounds. -/
theorem pyslice_nat {α : Type} (xs : List α) (i j : Nat) (hij : i ≤ j)
    (hj : (j : Int) ≤ (xs.length : Int)) :
    pyslice xs (i : Int) (j : Int) = (xs.drop i).take (j - i) := by
  unfold pyslice
  rw [lenGo_eq]
  simp only [Nat.zero_add]
  have hi0 : ¬ ((i : Int) < 0) := by omega
  have hj0 : ¬ ((j : Int) < 0) := by omega
  rw [if_neg hi0, if_neg hj0]
  have hmi : min (i : Int) (xs.length : Int) = (i : Int) := by omega
  have hmj : min (j : Int) (xs.length : Int) = (j : Int) := by omega
  rw [hmi, hmj]
  have h1 : ((i : Int)).toNat = i := by omega
  have h2 : ((j : Int) - (i : Int)).toNat = j - i := by omega
  rw [h1, h2]

/-- Python slice evaluation with explicit natural bounds. -/
theorem pyslice_eval {α : Type} (xs : List α) (i j : Int) (i2 j2 : Nat)
    (hi : i = (i2 : Int)) (hj : j = (j2 : Int)) (hij : i2 ≤ j2) (hlen : j2 ≤ xs.length) :
    pyslice xs i j = (xs.drop i2).take (j2 - i2) := by
  subst hi
  subst hj
  exact pyslice_nat xs i2 j2 hij (by omega)

/-- Python slice evaluation when the upper bound exceeds the length. -/
theorem pyslice_eval_hi {α : Type} (xs : List α) (i j : Int) (i2 : Nat)
    (hi : i = (i2 : Int)) (hi2 : i2 ≤ xs.length) (hj : (xs.length : Int) ≤ j) :
    pyslice xs i j = (xs.drop i2).take (xs.length - i2) := by
  subst hi
  unfold pyslice
  rw [lenGo_eq]
  simp only [Nat.zero_add]
  have hi0 : ¬ (((i2 : Nat) : Int) < 0) := by omega
  have hj0 : ¬ (j < 0) := by omega
  rw [if_neg hi0, if_neg hj0]
  have hmi : min ((i2 : Nat) : Int) (xs.length : Int) = ((i2 : Nat) : Int) := by omega
  have hmj : min j (xs.length : Int) = (xs.length : Int) := by omega
  rw [hmi, hmj]
  have h1 : (((i2 : Nat) : Int)).toNat = i2 := by omega
  have h2 : ((xs.length : Int) - ((i2 : Nat) : Int)).toNat = xs.length - i2 := by omega
  rw [h1, h2]

/-- C7.  For every text of exactly 10 whitespace-delimited words, the
word method with `chunk_size = 4` and `chunk_overlap = 1` produces the
chunks covering word-index windows [0,4), [3,7), [6,10), [9,10) in that
order, i.e. consecutive chunks share exactly the one boundary word. -/
theorem c7_word_overlap_windows (text : Text) (h : (splitWs text).length = 10) :
    chunkByWords cfgC7 text =
      [pyJoin [' '] ((splitWs text).take 4),
       pyJoin [' '] (((splitWs text).drop 3).take 4),
       pyJoin [' '] (((splitWs text).drop 6).take 4),
       pyJoin [' '] ((splitWs text).drop 9)] := by
  have hwords : ∀ w ∈ splitWs text, w ≠ [] ∧ ∀ ch ∈ w, ch.isWhitespace = false :=
    splitWsAux_words text [] (by simp)
  have hlenN : lenGo 0 (splitWs text) = 10 := by rw [lenGo_eq]; omega
  have hlenI : ((lenGo 0 (splitWs text) : Nat) : Int) = 10 := by rw [hlenN]; rfl
  have hw1 : stripChars (pyJoin [' '] ((splitWs text).take 4)) ≠ [] := by
    apply strip_join_ne_nil
    · intro hn
      have h2 := congrArg List.length hn
      rw [List.length_take, h] at h2
      simp at h2
    · intro w hw
      exact hwords w (List.mem_of_mem_take hw)
  have hw2 : stripChars (pyJoin [' '] (((splitWs text).drop 3).take 4)) ≠ [] := by
    apply strip_join_ne_nil
    · intro hn
      have h2 := congrArg List.length hn
      rw [List.length_take, List.length_drop, h] at h2
      simp at h2
    · intro w hw
      exact hwords w (List.mem_of_mem_drop (List.mem_of_mem_take hw))
  have hw3 : stripChars (pyJoin [' '] (((splitWs text).drop 6).take 4)) ≠ [] := by
    apply strip_join_ne_nil
    · intro hn
      have h2 := congrArg List.length hn
      rw [List.length_take, List.length_drop, h] at h2
      simp at h2
    · intro w hw
      exact hwords w (List.mem_of_mem_drop (List.mem_of_mem_take hw))
  have hw4 : stripChars (pyJoin [' '] ((splitWs text).drop 9)) ≠ [] := by
    apply strip_join_ne_nil
    · intro hn
      have h2 := congrArg List.length hn
      rw [List.length_drop, h] at h2
      simp at h2
    · intro w hw
      exact hwords w (List.mem_of_mem_drop hw)
  have e1 : pyslice (splitWs text) (0 : Int) 4 = (splitWs text).take 4 := by
    rw [pyslice_eval (splitWs text) 0 4 0 4 (by norm_num) (by norm_num) (by omega) (by omega)]
    simp
  have e2 : pyslice (splitWs text) (3 : Int) 7 = ((splitWs text).drop 3).take 4 := by
    rw [pyslice_eval (splitWs text) 3 7 3 7 (by norm_num) (by norm_num) (by omega) (by omega)]
  have e3 : pyslice (splitWs text) (6 : Int) 10 = ((splitWs text).drop 6).take 4 := by
    rw [pyslice_eval (splitWs text) 6 10 6 10 (by norm_num) (by norm_num) (by omega) (by omega)]
  have e4 : pyslice (splitWs text) (9 : Int) 13 = (splitWs text).drop 9 := by
    rw [pyslice_eval_hi (splitWs text) 9 13 9 (by norm_num) (by omega) (by omega)]
    rw [h]
    exact List.take_of_length_le (by rw [List.length_drop, h])
  show chunkWordsGo 4 1 (splitWs text) (lenGo 0 (splitWs text) + 1) 0 [] = _
  rw [hlenN]
  rw [chunkWordsGo, if_pos (by rw [hlenI]; norm_num)]
  dsimp only
  norm_num
  rw [e1, if_neg hw1]
  rw [chunkWordsGo, if_pos (by rw [hlenI]; norm_num)]
  dsimp only
  norm_num
  rw [e2, if_neg hw2]
  rw [chunkWordsGo, if_pos (by rw [hlenI]; norm_num)]
  dsimp only
  norm_num
  rw [e3, if_neg hw3]
  rw [chunkWordsGo, if_pos (by rw [hlenI]; norm_num)]
  dsimp only
  norm_num
  rw [e4, if_neg hw4]
  rw [chunkWordsGo]
  rw [if_neg (by rw [hlenI]; norm_num)]

/-- C7, witness: a concrete 10-word text. -/
theorem c7_witness :
    chunkByWords cfgC7 textC7 =
      [pyJoin [' '] ((splitWs textC7).take 4),
       pyJoin [' '] (((splitWs textC7).drop 3).take 4),
       pyJoin [' '] (((splitWs textC7).drop 6).take 4),
       pyJoin [' '] ((splitWs textC7).drop 9)] :=
  c7_word_overlap_windows textC7 (by decide)
